import Mathlib

set_option maxRecDepth 10000

/-!
Shallow embedding of the AMCS Modbus bridge:
the Modbus/TCP write server `src/1_old/last_working_moxa.py` and the
read-only gateway client `src/read_moxa_gateway.py`.

Machine integers are modelled as `Nat` (registers are 16-bit words, bytes
are values below 256); IEEE-754 float32 values are represented exactly
(`F32` below) with rational magnitudes; wall-clock time is a rational
number of seconds.  `wordorder`/`byteorder` configuration values are the
literal strings the scripts compare against (`"big"`/`"little"`).
-/

/-- `int.from_bytes(b, "big")`: big-endian value of a byte list. -/
def bytesBE (bs : List Nat) : Nat := bs.foldl (fun a b => a * 256 + b) 0

/-- `_word_to_bytes` (last_working_moxa.py line 44): split a 16-bit word into
`[hi, lo]` for `"big"` byte order, `[lo, hi]` otherwise.  `(word >> 8) & 0xFF`
is `word / 256 % 256` and `word & 0xFF` is `word % 256`. -/
def wordToBytes (word : Nat) (byteorder : String) : List Nat :=
  let hi := word / 256 % 256
  let lo := word % 256
  if byteorder = "big" then [hi, lo] else [lo, hi]

/-- `_regs_to_bytes2` (line 48): 4-byte buffer of a register pair, word order
first, byte order inside each word. -/
def regsToBytes2 (r0 r1 : Nat) (wordorder byteorder : String) : List Nat :=
  let w0 := wordToBytes r0 byteorder
  let w1 := wordToBytes r1 byteorder
  if wordorder = "big" then w0 ++ w1 else w1 ++ w0

/-- Exact value of an IEEE-754 single-precision number: NaN, a signed
infinity, or a finite value given by its sign bit and exact magnitude. -/
inductive F32 where
  | nan : F32
  | inf : Bool → F32
  | fin : Bool → ℚ → F32
deriving DecidableEq, Repr

/-- `struct.unpack("!f", b)` on the 4-byte big-endian bit pattern `bits`:
sign `s`, biased exponent `e`, mantissa `m`; exponent 255 encodes
infinity/NaN, exponent 0 a subnormal `m * 2^-149`, otherwise the normal
value `(2^23 + m) * 2^(e - 150)`. -/
def f32FromBits (bits : Nat) : F32 :=
  let s : Bool := bits / 2 ^ 31 % 2 == 1
  let e : Nat := bits / 2 ^ 23 % 256
  let m : Nat := bits % 2 ^ 23
  if e = 255 then (if m = 0 then .inf s else .nan)
  else if e = 0 then .fin s ((m : ℚ) * (2 : ℚ) ^ (-149 : ℤ))
  else .fin s (((2 ^ 23 + m : Nat) : ℚ) * (2 : ℚ) ^ ((e : ℤ) - 150))

/-- `_f32_from_regs` (line 52). -/
def f32FromRegs (r0 r1 : Nat) (wordorder byteorder : String) : F32 :=
  f32FromBits (bytesBE (regsToBytes2 r0 r1 wordorder byteorder))

/-- `_u32_from_regs` (line 56): always a big-endian read of the assembled
buffer. -/
def u32FromRegs (r0 r1 : Nat) (wordorder byteorder : String) : Nat :=
  bytesBE (regsToBytes2 r0 r1 wordorder byteorder)

/-- Left-pad the decimal digits of `n` with zeros to width `w`
(Python `%0wd`). -/
def pad0 (w n : Nat) : String :=
  let s := toString n
  String.mk (List.replicate (w - s.length) '0') ++ s

/-- Round-half-to-even of an exact rational, as used by CPython when
formatting the exact binary value of a float with a fixed number of
decimals. -/
def rnd3 (q : ℚ) : ℤ :=
  let f := ⌊q⌋
  let r := q - (f : ℚ)
  if r < 1/2 then f
  else if 1/2 < r then f + 1
  else if f % 2 = 0 then f else f + 1

/-- Python `f"[value]:.3f"` on the exact float value: `nan`, `inf`/`-inf`,
or sign, integer digits, `.`, and exactly three correctly rounded
(half-to-even) decimal digits.  A negative zero keeps its minus sign. -/
def fmtFloat3 : F32 → String
  | .nan => "nan"
  | .inf b => if b then "-inf" else "inf"
  | .fin neg mag =>
      let n := (rnd3 (mag * 1000)).toNat
      (if neg then "-" else "") ++ toString (n / 1000) ++ "." ++ pad0 3 (n % 1000)

/-- `HC_ADDRS` (last_working_moxa.py lines 24-42): hour-counter tag to
register offset. -/
def HC_ADDRS : List (String × Nat) := [
  ("HC.0171", 3000), ("HC.0174", 3002), ("HC.0190", 3004),
  ("HC.0425", 3006), ("HC.0428", 3008), ("HC.0429", 3010),
  ("HC.0584", 3012), ("HC.0587", 3014), ("HC.0588", 3016),
  ("HC.0614", 3018), ("HC.0615", 3020), ("HC.0616", 3022),
  ("HC.0622", 3024), ("HC.0653", 3026), ("HC.0654", 3028),
  ("HC.0912", 3030), ("HC.0913", 3032), ("HC.0949", 3034),
  ("HC.0952", 3036), ("HC.1320", 3038), ("HC.1323", 3040),
  ("HC.1326", 3042), ("HC.1329", 3044), ("HC.1336", 3046),
  ("HC.1343", 3048), ("HC.1346", 3050), ("HC.1349", 3052),
  ("HC.1352", 3054), ("HC.1353", 3056), ("HC.1354", 3058),
  ("HC.1360", 3060), ("HC.1363", 3062), ("HC.1367", 3064),
  ("HC.1370", 3066), ("HC.1373", 3068), ("HC.1380", 3070),
  ("HC.1387", 3072), ("HC.1390", 3074), ("HC.1393", 3076),
  ("HC.1396", 3078), ("HC.1399", 3080), ("HC.1400", 3082),
  ("HC.1401", 3084), ("HC.1696", 3086), ("HC.1704", 3088),
  ("HC.1712", 3090), ("HC.1721", 3092), ("HC.1725", 3094),
  ("HC.1836", 3096), ("HC.1908", 3098), ("HC.1909", 3100)]

/-- AI block of `_write_values_to_file` (lines 62-66): 660 float channels at
word offsets `2i, 2i+1`. -/
def aiLines (wordorder byteorder : String) (regs : List Nat) : List String :=
  (List.range 660).map fun i =>
    "AI." ++ pad0 4 i ++ " | " ++
      fmtFloat3 (f32FromRegs (regs.getD (2*i) 0) (regs.getD (2*i+1) 0) wordorder byteorder)

/-- AO block (lines 67-72): 44 float channels at word offsets `2000 + 2i`. -/
def aoLines (wordorder byteorder : String) (regs : List Nat) : List String :=
  (List.range 44).map fun i =>
    "AO." ++ pad0 4 i ++ " | " ++
      fmtFloat3 (f32FromRegs (regs.getD (2000+2*i) 0) (regs.getD (2000+2*i+1) 0) wordorder byteorder)

/-- HC block (lines 73-77): one uint32 channel per `HC_ADDRS` entry. -/
def hcLines (wordorder byteorder : String) (regs : List Nat) : List String :=
  HC_ADDRS.map fun p =>
    p.1 ++ " | " ++
      toString (u32FromRegs (regs.getD p.2 0) (regs.getD (p.2+1) 0) wordorder byteorder)

/-- TK block (lines 78-83): 52 float channels at word offsets `4000 + 2i`. -/
def tkLines (wordorder byteorder : String) (regs : List Nat) : List String :=
  (List.range 52).map fun i =>
    "TK." ++ pad0 4 i ++ " | " ++
      fmtFloat3 (f32FromRegs (regs.getD (4000+2*i) 0) (regs.getD (4000+2*i+1) 0) wordorder byteorder)

/-- The full line list written by `_write_values_to_file`, in
table-declaration order AI, AO, HC, TK. -/
def snapshotLines (wordorder byteorder : String) (regs : List Nat) : List String :=
  aiLines wordorder byteorder regs ++ aoLines wordorder byteorder regs ++
    hcLines wordorder byteorder regs ++ tkLines wordorder byteorder regs

/-- `"\n".join(lines)` (line 85): the file text, no trailing newline. -/
def snapshotText (wordorder byteorder : String) (regs : List Nat) : String :=
  String.intercalate "\n" (snapshotLines wordorder byteorder regs)

/-- Handler configuration (class attributes set in `main()`,
lines 88-92 / 168-171).  `addr_base` is a CLI integer. -/
structure Cfg where
  addr_base : ℤ
  wordorder : String
  byteorder : String
deriving DecidableEq, Repr

/-- Process-wide mutable state: `REGS` (line 19), `LAST_WRITE_TS` (line 21)
and the snapshot file.  `fileContent` is the current content of the outfile
(`none` before the first flush); `flushLog` records the text written by each
flush, oldest first, so `flushLog.length` counts flushes. -/
structure ServerState where
  regs : List Nat
  lastWriteTs : ℚ
  fileContent : Option String
  flushLog : List String
deriving DecidableEq, Repr

/-- `REGS = [0] * 4104` (line 19) and `LAST_WRITE_TS = 0.0` (line 21). -/
def initState : ServerState :=
  { regs := List.replicate 4104 0, lastWriteTs := 0, fileContent := none, flushLog := [] }

/-- One bounds-checked register write:
`if 0 <= j < len(REGS): REGS[j] = w` (lines 121-123 / 141-142). -/
def setAt (regs : List Nat) (j : ℤ) (w : Nat) : List Nat :=
  if 0 ≤ j ∧ j < (regs.length : ℤ) then regs.set j.toNat w else regs

/-- The FC16 write loop (lines 120-123): store `vals` at consecutive indices
starting at `idx0`, skipping out-of-range indices. -/
def writeVals (regs : List Nat) (idx0 : ℤ) : List Nat → List Nat
  | [] => regs
  | w :: ws => writeVals (setAt regs idx0 w) (idx0 + 1) ws

/-- `_write_values_to_file(outfile, ...)` (lines 60-85): truncate + write the
snapshot text; the log records the flush. -/
def doFlush (cfg : Cfg) (st : ServerState) : ServerState :=
  let text := snapshotText cfg.wordorder cfg.byteorder st.regs
  { st with fileContent := some text, flushLog := st.flushLog ++ [text] }

/-- `struct.pack("!H", n)` for `n < 2^16`. -/
def enc16 (n : Nat) : List Nat := [n / 256 % 256, n % 256]

/-- Big-endian 16-bit read at offset `i` of a byte list (`struct.unpack("!H", ...)`). -/
def be16 (bs : List Nat) (i : Nat) : Nat := 256 * bs.getD i 0 + bs.getD (i+1) 0

/-- `_exception` PDU (line 154): `struct.pack("!BB", fc | 0x80, code)`. -/
def excPdu (fc code : Nat) : List Nat := [Nat.lor fc 0x80, code]

/-- `_send` (lines 149-151): MBAP header
`struct.pack("!HHHB", tid, 0, len(pdu) + 1, uid)` followed by the PDU. -/
def sendBytes (tid uid : Nat) (pdu : List Nat) : List Nat :=
  enc16 tid ++ enc16 0 ++ enc16 (pdu.length + 1) ++ [uid] ++ pdu

/-- Address translation (lines 117 / 139):
`start - addr_base if start >= addr_base else start`. -/
def translateAddr (cfg : Cfg) (start : Nat) : ℤ :=
  if (start : ℤ) ≥ cfg.addr_base then (start : ℤ) - cfg.addr_base else (start : ℤ)

/-- The body of the request dispatch (lines 107-147) for one already-framed
PDU: returns the new process state and the response PDU.  `now` is the value
`time.time()` returns during this request; the throttle constant `0.2`
seconds is the rational `1/5`. -/
def handlePdu (cfg : Cfg) (now : ℚ) (pdu : List Nat) (st : ServerState) :
    ServerState × List Nat :=
  let fc := pdu.getD 0 0
  if fc = 0x10 then
    if pdu.length < 6 then (st, excPdu fc 0x03)
    else
      let start := be16 pdu 1
      let qty := be16 pdu 3
      let bc := pdu.getD 5 0
      if pdu.length ≠ 6 + bc ∨ bc ≠ qty * 2 then (st, excPdu fc 0x03)
      else
        let idx0 := translateAddr cfg start
        let vals := (List.range qty).map fun i =>
          256 * pdu.getD (6+2*i) 0 + pdu.getD (6+2*i+1) 0
        let st1 := { st with regs := writeVals st.regs idx0 vals }
        let st2 :=
          if now - st1.lastWriteTs ≥ 1/5 then
            { doFlush cfg st1 with lastWriteTs := now }
          else st1
        (st2, 0x10 :: (enc16 start ++ enc16 qty))
  else if fc = 0x06 then
    if pdu.length ≠ 5 then (st, excPdu fc 0x03)
    else
      let start := be16 pdu 1
      let value := be16 pdu 3
      let idx := translateAddr cfg start
      let st1 :=
        if 0 ≤ idx ∧ idx < (st.regs.length : ℤ) then
          doFlush cfg { st with regs := st.regs.set idx.toNat value }
        else st
      (st1, pdu.take 5)
  else (st, excPdu fc 0x01)

/-- The per-connection loop (lines 94-147).  `input` is the whole byte
sequence the peer will ever send before closing; `rfile.read(n)` on a
blocking socket yields `min n remaining` bytes (all remaining bytes when
`n = -1`, which happens when the announced length is 0).  `times` supplies
the `time.time()` value for each processed request.  Returns the final state
and the concatenation of all bytes written back to the peer. -/
def handleConn (cfg : Cfg) (times : List ℚ) (input : List Nat) (st : ServerState) :
    ServerState × List Nat :=
  if _h : input.length < 7 then (st, [])
  else
    let hdr := input.take 7
    let tid := be16 hdr 0
    let lenF := be16 hdr 4
    let uid := hdr.getD 6 0
    let rest := input.drop 7
    let pdu := if lenF = 0 then rest else rest.take (lenF - 1)
    let remaining := if lenF = 0 then ([] : List Nat) else rest.drop (lenF - 1)
    if pdu.length < 1 then (st, [])
    else
      let r := handlePdu cfg (times.headD 0) pdu st
      let nxt := handleConn cfg times.tail remaining r.1
      (nxt.1, sendBytes tid uid r.2 ++ nxt.2)
termination_by input.length
decreasing_by
  split
  · simp only [List.length_nil]; omega
  · simp only [List.length_drop]; omega

/-- The translated write footprint of a request: the indices lines 119-123 /
140-142 may store to (before the bounds check). -/
def touchedIdx (cfg : Cfg) (pdu : List Nat) : List ℤ :=
  let fc := pdu.getD 0 0
  if fc = 0x10 then
    if pdu.length < 6 then []
    else
      let qty := be16 pdu 3
      let bc := pdu.getD 5 0
      if pdu.length ≠ 6 + bc ∨ bc ≠ qty * 2 then []
      else (List.range qty).map fun (i : Nat) => translateAddr cfg (be16 pdu 1) + (i : ℤ)
  else if fc = 0x06 then
    if pdu.length ≠ 5 then [] else [translateAddr cfg (be16 pdu 1)]
  else []

/-- `HOUR_COUNTER_IDS` (read_moxa_gateway.py lines 50-102). -/
def HOUR_COUNTER_IDS : List String := [
  "HC.0171", "HC.0174", "HC.0190", "HC.0425", "HC.0428", "HC.0429",
  "HC.0584", "HC.0587", "HC.0588", "HC.0614", "HC.0615", "HC.0616",
  "HC.0622", "HC.0653", "HC.0654", "HC.0912", "HC.0913", "HC.0949",
  "HC.0952", "HC.1320", "HC.1323", "HC.1326", "HC.1329", "HC.1336",
  "HC.1343", "HC.1346", "HC.1349", "HC.1352", "HC.1353", "HC.1354",
  "HC.1360", "HC.1363", "HC.1367", "HC.1370", "HC.1373", "HC.1380",
  "HC.1387", "HC.1390", "HC.1393", "HC.1396", "HC.1399", "HC.1400",
  "HC.1401", "HC.1696", "HC.1704", "HC.1712", "HC.1721", "HC.1725",
  "HC.1836", "HC.1908", "HC.1909"]

/-- `word.to_bytes(2, byteorder=...)` (read_moxa_gateway.py line 267) for a
16-bit register value. -/
def readerWordBytes (byte_order : String) (w : Nat) : List Nat :=
  if byte_order = "big" then [w / 256 % 256, w % 256] else [w % 256, w / 256 % 256]

/-- The `raw` buffer of `decode_values` (lines 263-267): take the pair in
wire order, reverse it when the word order is `"little"`, and serialize each
word with the configured byte order. -/
def readerRawBytes (word_order byte_order : String) (r0 r1 : Nat) : List Nat :=
  let pair := if word_order = "little" then [r1, r0] else [r0, r1]
  pair.flatMap (readerWordBytes byte_order)

/-- `struct.unpack(fmt_prefix + "f", raw)` (lines 262, 269): the format
prefix follows the byte order, so a little byte order reverses the whole
4-byte buffer before the IEEE interpretation. -/
def readerF32 (word_order byte_order : String) (r0 r1 : Nat) : F32 :=
  let raw := readerRawBytes word_order byte_order r0 r1
  if byte_order = "big" then f32FromBits (bytesBE raw)
  else f32FromBits (bytesBE raw.reverse)

/-- `struct.unpack(fmt_prefix + "I", raw)` (lines 262, 271). -/
def readerU32 (word_order byte_order : String) (r0 r1 : Nat) : Nat :=
  let raw := readerRawBytes word_order byte_order r0 r1
  if byte_order = "big" then bytesBE raw else bytesBE raw.reverse

/-- One block of `collect_snapshot` (lines 284-299): `read_registers` returns
the `2 * ids.length` device registers from `start` (here: the server's
register file, out-of-range reads yielding the store default 0),
`decode_values` pairs them up, and each channel yields the line
`f"[channel_id] | [value]"` with `format_value` (lines 277-281): uint32 as a
plain decimal (the float round-trip through `float(u32)`/`int` is exact
below 2^32), floats via `.3f`. -/
def readerBlockLines (regs : List Nat) (word_order byte_order : String)
    (ids : List String) (start : Nat) (isU32 : Bool) : List String :=
  (List.range ids.length).map fun i =>
    let r0 := regs.getD (start + 2*i) 0
    let r1 := regs.getD (start + 2*i + 1) 0
    ids.getD i "" ++ " | " ++
      (if isU32 then toString (readerU32 word_order byte_order r0 r1)
       else fmtFloat3 (readerF32 word_order byte_order r0 r1))

/-- The `(channel_id, formatted_value)` lines of `collect_snapshot` over the
four `REGISTER_BLOCKS` (lines 105-130), in declaration order. -/
def readerChannelLines (regs : List Nat) (word_order byte_order : String) : List String :=
  readerBlockLines regs word_order byte_order
      ((List.range 660).map fun i => "AI." ++ pad0 4 i) 0 false ++
    readerBlockLines regs word_order byte_order
      ((List.range 44).map fun i => "AO." ++ pad0 4 i) 2000 false ++
    readerBlockLines regs word_order byte_order HOUR_COUNTER_IDS 3000 true ++
    readerBlockLines regs word_order byte_order
      ((List.range 52).map fun i => "TK." ++ pad0 4 i) 4000 false

/-- Value type of a channel group (spec section 3: `Float32 | UInt32`). -/
inductive VType where
  | float32 : VType
  | uint32 : VType
deriving DecidableEq, Repr

/-- Result of the heuristic value decoder. -/
inductive DecodedVal where
  | floatVal : F32 → DecodedVal
  | scaledInt : ℚ → DecodedVal
  | uintVal : Nat → DecodedVal
deriving DecidableEq, Repr

/-- Plausibility of a decoded float (spec section 4.3): finite with
magnitude in `[1e-6, 1e6]`. -/
def plausibleF32 : F32 → Bool
  | .fin _ mag => decide (mkRat 1 1000000 ≤ mag ∧ mag ≤ 1000000)
  | _ => false

/-- The signed 16-bit two's-complement reinterpretation of a register word. -/
def int16Of (w : Nat) : ℤ := if w < 0x8000 then (w : ℤ) else (w : ℤ) - 0x10000

/-- Modelled from the spec: the heuristic decode variant of the Value
Decoder (spec sections 4.3 and 9) is not among the files under `src/`; this
definition follows the spec's words.  Prefer the Float32 interpretation of
the pair; if it is implausible (NaN, infinite, or magnitude outside
`[1e-6, 1e6]`) and the high-order word (word-order dependent) is `0x0000` or
`0xFFFF`, reinterpret the low-order word as a signed 16-bit integer times
the channel group's configured scale factor; otherwise return the
(possibly implausible) float unchanged.  UInt32 channels always use the
plain big-endian 32-bit read. -/
def heuristicDecode (wordorder byteorder : String) (scale : ℚ) (vt : VType)
    (w0 w1 : Nat) : DecodedVal :=
  match vt with
  | .uint32 => .uintVal (u32FromRegs w0 w1 wordorder byteorder)
  | .float32 =>
    let f := f32FromRegs w0 w1 wordorder byteorder
    if plausibleF32 f then .floatVal f
    else
      let hi := if wordorder = "big" then w0 else w1
      let lo := if wordorder = "big" then w1 else w0
      if hi = 0x0000 ∨ hi = 0xFFFF then .scaledInt ((int16Of lo : ℚ) * scale)
      else .floatVal f

/-! ### General helper lemmas -/

theorem getD_mapRange {α : Type} (f : Nat → α) {n i : Nat} (h : i < n) (d : α) :
    ((List.range n).map f).getD i d = f i := by
  simp [List.getD_eq_getElem?_getD, List.getElem?_map, List.getElem?_range h]

theorem getD_append_left {α : Type} {l1 l2 : List α} {i : Nat} (h : i < l1.length) (d : α) :
    (l1 ++ l2).getD i d = l1.getD i d := by
  simp [List.getD_eq_getElem?_getD, List.getElem?_append, h]

theorem getD_append_right {α : Type} {l1 l2 : List α} {i : Nat} (h : l1.length ≤ i) (d : α) :
    (l1 ++ l2).getD i d = l2.getD (i - l1.length) d := by
  simp [List.getD_eq_getElem?_getD, List.getElem?_append_right h]

theorem getD_lt_of_forall {regs : List Nat} {b : Nat} (h : ∀ r ∈ regs, r < b)
    (hb : 0 < b) (i : Nat) : regs.getD i 0 < b := by
  rcases Nat.lt_or_ge i regs.length with hi | hi
  · rw [List.getD_eq_getElem?_getD, List.getElem?_eq_getElem hi]
    exact h _ (List.getElem_mem hi)
  · rw [List.getD_eq_getElem?_getD, List.getElem?_eq_none (by simpa using hi)]
    exact hb

theorem setAt_length (regs : List Nat) (j : ℤ) (w : Nat) :
    (setAt regs j w).length = regs.length := by
  unfold setAt; split <;> simp

theorem setAt_getD_ne {regs : List Nat} {j : ℤ} {w : Nat} {k : Nat}
    (h : (k : ℤ) ≠ j) (d : Nat) :
    (setAt regs j w).getD k d = regs.getD k d := by
  unfold setAt; split
  · rename_i hj
    have hne : j.toNat ≠ k := by omega
    simp [List.getD_eq_getElem?_getD, List.getElem?_set_ne hne]
  · rfl

theorem setAt_getD_self {regs : List Nat} {j : ℤ} {w : Nat}
    (h0 : 0 ≤ j) (h1 : j < (regs.length : ℤ)) (d : Nat) :
    (setAt regs j w).getD j.toNat d = w := by
  unfold setAt
  rw [if_pos ⟨h0, h1⟩]
  have hlt : j.toNat < regs.length := by omega
  simp [List.getD_eq_getElem?_getD, List.getElem?_set_eq_of_lt _ hlt]

theorem writeVals_length (vals : List Nat) :
    ∀ (regs : List Nat) (idx0 : ℤ), (writeVals regs idx0 vals).length = regs.length := by
  induction vals with
  | nil => intro regs idx0; rfl
  | cons w ws ih =>
      intro regs idx0
      rw [writeVals, ih, setAt_length]

theorem writeVals_getD_outside (vals : List Nat) :
    ∀ (regs : List Nat) (idx0 : ℤ) (k : Nat) (d : Nat),
    ((k : ℤ) < idx0 ∨ idx0 + vals.length ≤ (k : ℤ)) →
    (writeVals regs idx0 vals).getD k d = regs.getD k d := by
  induction vals with
  | nil => intro regs idx0 k d _; rfl
  | cons w ws ih =>
      intro regs idx0 k d h
      simp only [List.length_cons] at h
      rw [writeVals, ih _ _ _ _ (by push_cast at h ⊢; omega)]
      exact setAt_getD_ne (by omega) d

theorem writeVals_getD_at (vals : List Nat) :
    ∀ (regs : List Nat) (idx0 : ℤ) (i : Nat) (d : Nat), i < vals.length →
    0 ≤ idx0 + i → idx0 + i < (regs.length : ℤ) →
    (writeVals regs idx0 vals).getD (idx0 + i).toNat d = vals.getD i 0 := by
  induction vals with
  | nil => intro regs idx0 i d h _ _; simp at h
  | cons w ws ih =>
      intro regs idx0 i d hi h0 h1
      match i with
      | 0 =>
          rw [writeVals]
          have hk : ((idx0 + 0).toNat : ℤ) = idx0 := by omega
          rw [writeVals_getD_outside ws _ _ _ _ (Or.inl (by omega))]
          have h0' : 0 ≤ idx0 := by omega
          have h1' : idx0 < ((setAt regs idx0 w).length : ℤ) := by
            rw [setAt_length]; omega
          have := @setAt_getD_self regs idx0 w h0' (by omega) d
          simpa [show (idx0 + 0) = idx0 by ring] using this
      | i + 1 =>
          rw [writeVals]
          have : idx0 + (i + 1 : Nat) = (idx0 + 1) + i := by push_cast; ring
          rw [this, List.getD_cons_succ]
          exact ih _ _ _ _ (by simpa using hi) (by push_cast at h0 ⊢; omega)
            (by rw [setAt_length]; push_cast at h1 ⊢; omega)

/-! ### Connection-loop unfolding lemmas -/

theorem handleConn_eq_short (cfg : Cfg) (times : List ℚ) (input : List Nat)
    (st : ServerState) (h : input.length < 7) :
    handleConn cfg times input st = (st, []) := by
  rw [handleConn]; simp [h]

theorem handleConn_eq_nopdu (cfg : Cfg) (times : List ℚ) (input : List Nat)
    (st : ServerState) (h7 : ¬ input.length < 7)
    (hp : (if be16 (input.take 7) 4 = 0 then input.drop 7
           else (input.drop 7).take (be16 (input.take 7) 4 - 1)).length < 1) :
    handleConn cfg times input st = (st, []) := by
  rw [handleConn]
  simp only [h7, dite_false]
  split at hp <;> simp_all

theorem handleConn_eq_step (cfg : Cfg) (times : List ℚ) (input : List Nat)
    (st : ServerState) (h7 : ¬ input.length < 7)
    (hL : be16 (input.take 7) 4 ≠ 0)
    (hp : ¬ ((input.drop 7).take (be16 (input.take 7) 4 - 1)).length < 1) :
    handleConn cfg times input st =
      ((handleConn cfg times.tail ((input.drop 7).drop (be16 (input.take 7) 4 - 1))
          (handlePdu cfg (times.headD 0)
            ((input.drop 7).take (be16 (input.take 7) 4 - 1)) st).1).1,
       sendBytes (be16 (input.take 7) 0) ((input.take 7).getD 6 0)
           (handlePdu cfg (times.headD 0)
             ((input.drop 7).take (be16 (input.take 7) 4 - 1)) st).2 ++
         (handleConn cfg times.tail ((input.drop 7).drop (be16 (input.take 7) 4 - 1))
           (handlePdu cfg (times.headD 0)
             ((input.drop 7).take (be16 (input.take 7) 4 - 1)) st).1).2) := by
  rw [handleConn]
  simp only [h7, dite_false, hL, if_neg hL, hp, if_false]

/-- Processing of one complete frame: a 7-byte header announcing a PDU of
`p.length + 1` bytes, the PDU `p`, then further input. -/
theorem handleConn_frame (cfg : Cfg) (times : List ℚ) (hdr p rest : List Nat)
    (st : ServerState) (hh : hdr.length = 7) (hL : be16 hdr 4 - 1 = p.length)
    (hL0 : be16 hdr 4 ≠ 0) (hp : p ≠ []) :
    handleConn cfg times (hdr ++ (p ++ rest)) st =
      ((handleConn cfg times.tail rest (handlePdu cfg (times.headD 0) p st).1).1,
       sendBytes (be16 hdr 0) (hdr.getD 6 0) (handlePdu cfg (times.headD 0) p st).2 ++
         (handleConn cfg times.tail rest (handlePdu cfg (times.headD 0) p st).1).2) := by
  have htake : (hdr ++ (p ++ rest)).take 7 = hdr := List.take_left' hh
  have hdrop : (hdr ++ (p ++ rest)).drop 7 = p ++ rest := List.drop_left' hh
  have hlen : ¬ (hdr ++ (p ++ rest)).length < 7 := by simp [hh]
  have hpdu : ((hdr ++ (p ++ rest)).drop 7).take (be16 ((hdr ++ (p ++ rest)).take 7) 4 - 1) = p := by
    rw [hdrop, htake, hL, List.take_left]
  have hrem : ((hdr ++ (p ++ rest)).drop 7).drop (be16 ((hdr ++ (p ++ rest)).take 7) 4 - 1) = rest := by
    rw [hdrop, htake, hL, List.drop_left]
  rw [handleConn_eq_step cfg times _ st hlen (by rw [htake]; exact hL0)
      (by rw [hpdu]; have := List.length_pos.mpr hp; omega), hpdu, hrem, htake]

/-- A short header (fewer than 7 bytes) terminates the connection with no
response bytes. -/
theorem handleConn_short_header (cfg : Cfg) (times : List ℚ) (input : List Nat)
    (st : ServerState) (h : input.length < 7) :
    (handleConn cfg times input st).2 = [] := by
  rw [handleConn_eq_short cfg times input st h]

/-- A complete header followed by a truncated, non-empty payload: the
truncated payload is processed as a request and its response is sent. -/
theorem handleConn_truncated (cfg : Cfg) (times : List ℚ) (hdr p : List Nat)
    (st : ServerState) (hh : hdr.length = 7) (h1 : 1 ≤ p.length)
    (h2 : p.length < be16 hdr 4 - 1) :
    handleConn cfg times (hdr ++ p) st =
      ((handlePdu cfg (times.headD 0) p st).1,
       sendBytes (be16 hdr 0) (hdr.getD 6 0) (handlePdu cfg (times.headD 0) p st).2) := by
  have htake : (hdr ++ p).take 7 = hdr := List.take_left' hh
  have hdrop : (hdr ++ p).drop 7 = p := List.drop_left' hh
  have hlen : ¬ (hdr ++ p).length < 7 := by simp [hh]
  have hL0 : be16 hdr 4 ≠ 0 := by omega
  have hpdu : ((hdr ++ p).drop 7).take (be16 ((hdr ++ p).take 7) 4 - 1) = p := by
    rw [hdrop, htake]; exact List.take_of_length_le (by omega)
  have hrem : ((hdr ++ p).drop 7).drop (be16 ((hdr ++ p).take 7) 4 - 1) = [] := by
    rw [hdrop, htake]; exact List.drop_eq_nil_of_le (by omega)
  rw [handleConn_eq_step cfg times _ st hlen (by rw [htake]; exact hL0)
      (by rw [hpdu]; omega), hpdu, hrem, htake,
    handleConn_eq_short _ _ _ _ (by simp)]
  simp

/-! ### Snapshot structure lemmas -/

theorem getD_map_lt {α β : Type} (f : α → β) {l : List α} {k : Nat}
    (h : k < l.length) (d : β) (d' : α) :
    (l.map f).getD k d = f (l.getD k d') := by
  rw [List.getD_eq_getElem?_getD, List.getElem?_map, List.getElem?_eq_getElem h,
    List.getD_eq_getElem?_getD, List.getElem?_eq_getElem h]
  rfl

theorem map_eq_mapRange_getD {α β : Type} (f : α → β) (l : List α) (d : α) :
    l.map f = (List.range l.length).map fun k => f (l.getD k d) := by
  apply List.ext_getElem?
  intro k
  by_cases h : k < l.length
  · rw [List.getElem?_map, List.getElem?_map, List.getElem?_range h,
      List.getElem?_eq_getElem h]
    simp [List.getD_eq_getElem?_getD, List.getElem?_eq_getElem h]
  · rw [List.getElem?_map, List.getElem?_map,
      List.getElem?_eq_none (by simpa using h),
      List.getElem?_eq_none (by simpa using h)]
    rfl

theorem HC_ADDRS_length : HC_ADDRS.length = 51 := rfl

theorem HOUR_COUNTER_IDS_length : HOUR_COUNTER_IDS.length = 51 := rfl

/-- The hour-counter table pairs the k-th reader tag with word offset
`3000 + 2k`. -/
theorem HC_table_spec : ∀ k, k < 51 →
    HC_ADDRS.getD k ("", 0) = (HOUR_COUNTER_IDS.getD k "", 3000 + 2 * k) := by
  decide

theorem aiLines_length (wo bo : String) (regs : List Nat) :
    (aiLines wo bo regs).length = 660 := by simp [aiLines]

theorem aoLines_length (wo bo : String) (regs : List Nat) :
    (aoLines wo bo regs).length = 44 := by simp [aoLines]

theorem hcLines_length (wo bo : String) (regs : List Nat) :
    (hcLines wo bo regs).length = 51 := by
  simp only [hcLines, List.length_map, HC_ADDRS_length]

theorem tkLines_length (wo bo : String) (regs : List Nat) :
    (tkLines wo bo regs).length = 52 := by simp [tkLines]

theorem snapshotLines_assoc (wo bo : String) (regs : List Nat) :
    snapshotLines wo bo regs =
      aiLines wo bo regs ++ (aoLines wo bo regs ++ (hcLines wo bo regs ++ tkLines wo bo regs)) := by
  simp [snapshotLines, List.append_assoc]

theorem snapshotLines_length (wo bo : String) (regs : List Nat) :
    (snapshotLines wo bo regs).length = 807 := by
  simp [snapshotLines, aiLines_length, aoLines_length, hcLines_length, tkLines_length]

theorem snapshotLines_getD_ai (wo bo : String) (regs : List Nat) {i : Nat}
    (h : i < 660) :
    (snapshotLines wo bo regs).getD i "" =
      "AI." ++ pad0 4 i ++ " | " ++
        fmtFloat3 (f32FromRegs (regs.getD (2*i) 0) (regs.getD (2*i+1) 0) wo bo) := by
  rw [snapshotLines_assoc, getD_append_left (by rw [aiLines_length]; omega),
    aiLines, getD_mapRange _ h]

theorem snapshotLines_getD_ao (wo bo : String) (regs : List Nat) {i : Nat}
    (h : i < 44) :
    (snapshotLines wo bo regs).getD (660 + i) "" =
      "AO." ++ pad0 4 i ++ " | " ++
        fmtFloat3 (f32FromRegs (regs.getD (2000+2*i) 0) (regs.getD (2000+2*i+1) 0) wo bo) := by
  rw [snapshotLines_assoc, getD_append_right (by rw [aiLines_length]; omega),
    aiLines_length, getD_append_left (by rw [aoLines_length]; omega)]
  have h1 : 660 + i - 660 = i := by omega
  rw [h1, aoLines, getD_mapRange _ h]

theorem snapshotLines_getD_hc (wo bo : String) (regs : List Nat) {k : Nat}
    (h : k < 51) :
    (snapshotLines wo bo regs).getD (704 + k) "" =
      (HC_ADDRS.getD k ("", 0)).1 ++ " | " ++
        toString (u32FromRegs (regs.getD (HC_ADDRS.getD k ("", 0)).2 0)
          (regs.getD ((HC_ADDRS.getD k ("", 0)).2 + 1) 0) wo bo) := by
  rw [snapshotLines_assoc, getD_append_right (by rw [aiLines_length]; omega),
    aiLines_length, getD_append_right (by rw [aoLines_length]; omega), aoLines_length]
  have h1 : 704 + k - 660 - 44 = k := by omega
  rw [h1, getD_append_left (by rw [hcLines_length]; omega), hcLines,
    getD_map_lt _ (by rw [HC_ADDRS_length]; omega) _ ("", 0)]

theorem snapshotLines_getD_tk (wo bo : String) (regs : List Nat) {i : Nat}
    (h : i < 52) :
    (snapshotLines wo bo regs).getD (755 + i) "" =
      "TK." ++ pad0 4 i ++ " | " ++
        fmtFloat3 (f32FromRegs (regs.getD (4000+2*i) 0) (regs.getD (4000+2*i+1) 0) wo bo) := by
  rw [snapshotLines_assoc, getD_append_right (by rw [aiLines_length]; omega),
    aiLines_length, getD_append_right (by rw [aoLines_length]; omega), aoLines_length,
    getD_append_right (by rw [hcLines_length]; omega), hcLines_length]
  have h1 : 755 + i - 660 - 44 - 51 = i := by omega
  rw [h1, tkLines, getD_mapRange _ h]

/-! ### Reader vs server decoding -/

theorem readerRaw_big_eq {wo : String} (hwo : wo = "big" ∨ wo = "little")
    (r0 r1 : Nat) :
    readerRawBytes wo "big" r0 r1 = regsToBytes2 r0 r1 wo "big" := by
  have hne : ("big" : String) ≠ "little" := by decide
  have hne2 : ("little" : String) ≠ "big" := by decide
  rcases hwo with h | h <;> subst h <;>
    simp [readerRawBytes, readerWordBytes, regsToBytes2, wordToBytes, hne, hne2]

theorem readerF32_big_eq {wo : String} (hwo : wo = "big" ∨ wo = "little")
    (r0 r1 : Nat) :
    readerF32 wo "big" r0 r1 = f32FromRegs r0 r1 wo "big" := by
  rw [readerF32, if_pos rfl, readerRaw_big_eq hwo, f32FromRegs]

theorem readerU32_big_eq {wo : String} (hwo : wo = "big" ∨ wo = "little")
    (r0 r1 : Nat) :
    readerU32 wo "big" r0 r1 = u32FromRegs r0 r1 wo "big" := by
  rw [readerU32, if_pos rfl, readerRaw_big_eq hwo, u32FromRegs]

theorem readerBlock_ai_eq {wo : String} (hwo : wo = "big" ∨ wo = "little")
    (regs : List Nat) :
    readerBlockLines regs wo "big" ((List.range 660).map fun i => "AI." ++ pad0 4 i) 0 false
      = aiLines wo "big" regs := by
  unfold readerBlockLines aiLines
  rw [List.length_map, List.length_range]
  apply List.map_congr_left
  intro i hi
  have hi' := List.mem_range.mp hi
  rw [getD_mapRange _ hi']
  simp only [Nat.zero_add, Bool.false_eq_true, if_false, readerF32_big_eq hwo]

theorem readerBlock_ao_eq {wo : String} (hwo : wo = "big" ∨ wo = "little")
    (regs : List Nat) :
    readerBlockLines regs wo "big" ((List.range 44).map fun i => "AO." ++ pad0 4 i) 2000 false
      = aoLines wo "big" regs := by
  unfold readerBlockLines aoLines
  rw [List.length_map, List.length_range]
  apply List.map_congr_left
  intro i hi
  have hi' := List.mem_range.mp hi
  rw [getD_mapRange _ hi']
  simp only [Bool.false_eq_true, if_false, readerF32_big_eq hwo]

theorem readerBlock_tk_eq {wo : String} (hwo : wo = "big" ∨ wo = "little")
    (regs : List Nat) :
    readerBlockLines regs wo "big" ((List.range 52).map fun i => "TK." ++ pad0 4 i) 4000 false
      = tkLines wo "big" regs := by
  unfold readerBlockLines tkLines
  rw [List.length_map, List.length_range]
  apply List.map_congr_left
  intro i hi
  have hi' := List.mem_range.mp hi
  rw [getD_mapRange _ hi']
  simp only [Bool.false_eq_true, if_false, readerF32_big_eq hwo]

theorem readerBlock_hc_eq {wo : String} (hwo : wo = "big" ∨ wo = "little")
    (regs : List Nat) :
    readerBlockLines regs wo "big" HOUR_COUNTER_IDS 3000 true = hcLines wo "big" regs := by
  unfold readerBlockLines
  rw [HOUR_COUNTER_IDS_length, hcLines, map_eq_mapRange_getD _ HC_ADDRS ("", 0),
    HC_ADDRS_length]
  apply List.map_congr_left
  intro k hk
  have hk' := List.mem_range.mp hk
  rw [HC_table_spec k hk']
  simp only [if_true, readerU32_big_eq hwo]

theorem readerBlockLines_length (regs : List Nat) (wo bo : String)
    (ids : List String) (start : Nat) (b : Bool) :
    (readerBlockLines regs wo bo ids start b).length = ids.length := by
  simp [readerBlockLines]

theorem readerChannelLines_getD_hc (regs : List Nat) (wo bo : String) {k : Nat}
    (h : k < 51) :
    (readerChannelLines regs wo bo).getD (704 + k) "" =
      HOUR_COUNTER_IDS.getD k "" ++ " | " ++
        toString (readerU32 wo bo (regs.getD (3000+2*k) 0) (regs.getD (3000+2*k+1) 0)) := by
  have hai : (readerBlockLines regs wo bo
      ((List.range 660).map fun i => "AI." ++ pad0 4 i) 0 false).length = 660 := by
    rw [readerBlockLines_length]; simp
  have hao : (readerBlockLines regs wo bo
      ((List.range 44).map fun i => "AO." ++ pad0 4 i) 2000 false).length = 44 := by
    rw [readerBlockLines_length]; simp
  have hhc : (readerBlockLines regs wo bo HOUR_COUNTER_IDS 3000 true).length = 51 := by
    rw [readerBlockLines_length, HOUR_COUNTER_IDS_length]
  rw [readerChannelLines,
    getD_append_left (by rw [List.length_append, List.length_append, hai, hao, hhc]; omega),
    getD_append_right (by rw [List.length_append, hai, hao]; omega)]
  have h1 : 704 + k - (readerBlockLines regs wo bo
        ((List.range 660).map fun i => "AI." ++ pad0 4 i) 0 false ++
      readerBlockLines regs wo bo
        ((List.range 44).map fun i => "AO." ++ pad0 4 i) 2000 false).length = k := by
    rw [List.length_append, hai, hao]; omega
  rw [h1, readerBlockLines, HOUR_COUNTER_IDS_length, getD_mapRange _ h]
  simp

/-! ### State-preservation helpers -/

theorem handlePdu_regs_length (cfg : Cfg) (now : ℚ) (pdu : List Nat)
    (st : ServerState) :
    (handlePdu cfg now pdu st).1.regs.length = st.regs.length := by
  by_cases h16 : pdu.getD 0 0 = 0x10
  · simp only [handlePdu, h16, if_pos]
    by_cases h6 : pdu.length < 6
    · rw [if_pos h6]
    · rw [if_neg h6]
      by_cases hm : pdu.length ≠ 6 + pdu.getD 5 0 ∨ pdu.getD 5 0 ≠ be16 pdu 3 * 2
      · rw [if_pos hm]
      · rw [if_neg hm]
        dsimp only
        split <;> simp [doFlush, writeVals_length]
  · simp only [handlePdu, h16, if_neg, if_false]
    by_cases h06 : pdu.getD 0 0 = 0x06
    · rw [if_pos h06]
      by_cases hl : pdu.length ≠ 5
      · rw [if_pos hl]
      · rw [if_neg hl]
        dsimp only
        split <;> simp [doFlush]
    · rw [if_neg h06]

theorem handleConn_regs_length_aux (cfg : Cfg) :
    ∀ (n : Nat) (input : List Nat), input.length ≤ n → ∀ (times : List ℚ) (st : ServerState),
    (handleConn cfg times input st).1.regs.length = st.regs.length := by
  intro n
  induction n with
  | zero =>
      intro input h times st
      rw [handleConn_eq_short _ _ _ _ (by omega)]
  | succ n ih =>
      intro input h times st
      by_cases h7 : input.length < 7
      · rw [handleConn_eq_short _ _ _ _ h7]
      · by_cases hL : be16 (input.take 7) 4 = 0
        · by_cases hp : (input.drop 7).length < 1
          · rw [handleConn_eq_nopdu _ _ _ _ h7 (by rw [if_pos hL]; exact hp)]
          · rw [handleConn]
            simp only [h7, dite_false, hL, if_true, if_pos, hp, if_false]
            rw [handleConn_eq_short _ _ _ _ (by simp)]
            exact handlePdu_regs_length cfg (times.headD 0) (input.drop 7) st
        · by_cases hp : ((input.drop 7).take (be16 (input.take 7) 4 - 1)).length < 1
          · rw [handleConn_eq_nopdu _ _ _ _ h7 (by rw [if_neg hL]; exact hp)]
          · rw [handleConn_eq_step _ _ _ _ h7 hL hp]
            rw [ih _ (by simp [List.length_drop]; omega)]
            exact handlePdu_regs_length cfg (times.headD 0) _ st

theorem handleConn_regs_length (cfg : Cfg) (times : List ℚ) (input : List Nat)
    (st : ServerState) :
    (handleConn cfg times input st).1.regs.length = st.regs.length :=
  handleConn_regs_length_aux cfg input.length input le_rfl times st

/-! ### Request-dispatch branch equations -/

theorem handlePdu_fc16_wf (cfg : Cfg) (now : ℚ) (pdu : List Nat) (st : ServerState)
    (h16 : pdu.getD 0 0 = 0x10)
    (hlen : pdu.length = 6 + pdu.getD 5 0)
    (hbc : pdu.getD 5 0 = be16 pdu 3 * 2) :
    handlePdu cfg now pdu st =
      (if now - st.lastWriteTs ≥ 1/5 then
        { doFlush cfg { st with regs := (writeVals st.regs (translateAddr cfg (be16 pdu 1))
            ((List.range (be16 pdu 3)).map fun i =>
              256 * pdu.getD (6+2*i) 0 + pdu.getD (6+2*i+1) 0)) } with lastWriteTs := now }
       else { st with regs := (writeVals st.regs (translateAddr cfg (be16 pdu 1))
            ((List.range (be16 pdu 3)).map fun i =>
              256 * pdu.getD (6+2*i) 0 + pdu.getD (6+2*i+1) 0)) },
       0x10 :: (enc16 (be16 pdu 1) ++ enc16 (be16 pdu 3))) := by
  simp only [handlePdu]
  rw [if_pos h16, if_neg (by omega), if_neg (by push_neg; exact ⟨hlen, hbc⟩)]

theorem handlePdu_fc16_malformed (cfg : Cfg) (now : ℚ) (pdu : List Nat) (st : ServerState)
    (h16 : pdu.getD 0 0 = 0x10)
    (hm : pdu.length < 6 ∨ pdu.length ≠ 6 + pdu.getD 5 0 ∨ pdu.getD 5 0 ≠ be16 pdu 3 * 2) :
    handlePdu cfg now pdu st = (st, excPdu 0x10 0x03) := by
  simp only [handlePdu]
  rw [if_pos h16]
  by_cases h6 : pdu.length < 6
  · rw [if_pos h6, h16]
  · rw [if_neg h6,
      if_pos (by rcases hm with h | h | h; exacts [absurd h h6, Or.inl h, Or.inr h]), h16]

theorem handlePdu_fc06_wf (cfg : Cfg) (now : ℚ) (pdu : List Nat) (st : ServerState)
    (h06 : pdu.getD 0 0 = 0x06) (hlen : pdu.length = 5) :
    handlePdu cfg now pdu st =
      (if 0 ≤ translateAddr cfg (be16 pdu 1) ∧ translateAddr cfg (be16 pdu 1) < (st.regs.length : ℤ)
       then doFlush cfg { st with regs := st.regs.set (translateAddr cfg (be16 pdu 1)).toNat (be16 pdu 3) }
       else st, pdu.take 5) := by
  simp only [handlePdu]
  rw [if_neg (by rw [h06]; decide), if_pos h06, if_neg (by omega)]

theorem handlePdu_fc06_malformed (cfg : Cfg) (now : ℚ) (pdu : List Nat) (st : ServerState)
    (h06 : pdu.getD 0 0 = 0x06) (hm : pdu.length ≠ 5) :
    handlePdu cfg now pdu st = (st, excPdu 0x06 0x03) := by
  simp only [handlePdu]
  rw [if_neg (by rw [h06]; decide), if_pos h06, if_pos hm, h06]

theorem handlePdu_unsupported (cfg : Cfg) (now : ℚ) (pdu : List Nat) (st : ServerState)
    (h1 : pdu.getD 0 0 ≠ 0x10) (h2 : pdu.getD 0 0 ≠ 0x06) :
    handlePdu cfg now pdu st = (st, excPdu (pdu.getD 0 0) 0x01) := by
  simp only [handlePdu]
  rw [if_neg h1, if_neg h2]

theorem initState_regs_length : initState.regs.length = 4104 := by
  rw [show initState.regs = List.replicate 4104 0 from rfl, List.length_replicate]

theorem handlePdu_fc16_wf_regs (cfg : Cfg) (now : ℚ) (pdu : List Nat) (st : ServerState)
    (h16 : pdu.getD 0 0 = 0x10)
    (hlen : pdu.length = 6 + pdu.getD 5 0)
    (hbc : pdu.getD 5 0 = be16 pdu 3 * 2) :
    (handlePdu cfg now pdu st).1.regs
      = writeVals st.regs (translateAddr cfg (be16 pdu 1))
        ((List.range (be16 pdu 3)).map fun i =>
          256 * pdu.getD (6+2*i) 0 + pdu.getD (6+2*i+1) 0) := by
  rw [handlePdu_fc16_wf cfg now pdu st h16 hlen hbc]
  by_cases hth : now - st.lastWriteTs ≥ 1/5
  · rw [if_pos hth]; simp [doFlush]
  · rw [if_neg hth]

/-! ### Claim theorems -/

/-- C1: for every well-formed Write Multiple Registers (FC 0x10) request
whose byteCount equals quantity*2 and whose PDU length equals 6+byteCount,
and whose translated offsets all lie in [0, 4104): after handling, the
quantity consecutive register words starting at the translated offset hold
the big-endian 16-bit payload values in order, and the response PDU is
(0x10, start, quantity). -/
theorem C1_fc16_valid_write (cfg : Cfg) (now : ℚ) (st : ServerState) (pdu : List Nat)
    (h16 : pdu.getD 0 0 = 0x10)
    (hlen : pdu.length = 6 + pdu.getD 5 0)
    (hbc : pdu.getD 5 0 = be16 pdu 3 * 2)
    (hlo : 0 ≤ translateAddr cfg (be16 pdu 1))
    (hhi : translateAddr cfg (be16 pdu 1) + be16 pdu 3 ≤ 4104)
    (hregs : st.regs.length = 4104) :
    (∀ i : Nat, i < be16 pdu 3 →
      (handlePdu cfg now pdu st).1.regs.getD (translateAddr cfg (be16 pdu 1) + i).toNat 0
        = 256 * pdu.getD (6+2*i) 0 + pdu.getD (6+2*i+1) 0) ∧
    (handlePdu cfg now pdu st).2 = 0x10 :: (enc16 (be16 pdu 1) ++ enc16 (be16 pdu 3)) := by
  constructor
  · intro i hi
    have h1 : (handlePdu cfg now pdu st).1.regs
        = writeVals st.regs (translateAddr cfg (be16 pdu 1))
          ((List.range (be16 pdu 3)).map fun i =>
            256 * pdu.getD (6+2*i) 0 + pdu.getD (6+2*i+1) 0) := by
      rw [handlePdu_fc16_wf cfg now pdu st h16 hlen hbc]
      by_cases hth : now - st.lastWriteTs ≥ 1/5
      · rw [if_pos hth]; simp [doFlush]
      · rw [if_neg hth]
    rw [h1, writeVals_getD_at _ _ _ _ _ (by simpa using hi) (by omega)
      (by rw [hregs]; push_cast; omega), getD_mapRange _ hi]
  · rw [handlePdu_fc16_wf cfg now pdu st h16 hlen hbc]

/-- C1 witness: with base 40001, a single-register FC16 write of 0xABCD to
protocol address 40001 stores 0xABCD at offset 0 and echoes
(0x10, 40001, 1). -/
theorem C1_fc16_valid_write_witness :
    (handlePdu ⟨40001, "big", "big"⟩ 1 [0x10, 0x9C, 0x41, 0, 1, 2, 0xAB, 0xCD]
      initState).1.regs.getD 0 0 = 0xABCD ∧
    (handlePdu ⟨40001, "big", "big"⟩ 1 [0x10, 0x9C, 0x41, 0, 1, 2, 0xAB, 0xCD]
      initState).2 = [0x10, 0x9C, 0x41, 0, 1] := by
  obtain ⟨h1, h2⟩ := C1_fc16_valid_write ⟨40001, "big", "big"⟩ 1 initState
    [0x10, 0x9C, 0x41, 0, 1, 2, 0xAB, 0xCD] (by decide) (by decide) (by decide)
    (by decide) (by decide) initState_regs_length
  constructor
  · have h0 := h1 0 (by decide)
    have e1 : (translateAddr (⟨40001, "big", "big"⟩ : Cfg)
        (be16 [0x10, 0x9C, 0x41, 0, 1, 2, 0xAB, 0xCD] 1) + ((0:ℕ):ℤ)).toNat = 0 := by decide
    rw [e1] at h0
    rw [h0]; decide
  · rw [h2]; decide

/-- C2: for every Write Single Register (FC 0x06) request with a 5-byte PDU
whose translated address lies in [0, 4104): after handling, the register
word at the translated address equals the written value, and the response
PDU equals the request PDU byte for byte. -/
theorem C2_fc06_valid_write (cfg : Cfg) (now : ℚ) (st : ServerState) (pdu : List Nat)
    (h06 : pdu.getD 0 0 = 0x06) (hlen : pdu.length = 5)
    (hlo : 0 ≤ translateAddr cfg (be16 pdu 1))
    (hhi : translateAddr cfg (be16 pdu 1) < 4104)
    (hregs : st.regs.length = 4104) :
    (handlePdu cfg now pdu st).1.regs.getD (translateAddr cfg (be16 pdu 1)).toNat 0
        = be16 pdu 3 ∧
    (handlePdu cfg now pdu st).2 = pdu := by
  rw [handlePdu_fc06_wf cfg now pdu st h06 hlen]
  constructor
  · dsimp only
    rw [if_pos ⟨hlo, by rw [hregs]; exact_mod_cast hhi⟩]
    have hidx : (translateAddr cfg (be16 pdu 1)).toNat < st.regs.length := by
      rw [hregs]; omega
    simp [doFlush, List.getD_eq_getElem?_getD, List.getElem?_set_eq_of_lt _ hidx]
  · dsimp only
    exact List.take_of_length_le (by omega)

/-- C2 witness: with base 40001, an FC06 write of value 7 to protocol
address 40001 stores 7 at offset 0 and echoes the request PDU. -/
theorem C2_fc06_valid_write_witness :
    (handlePdu ⟨40001, "big", "big"⟩ 1 [0x06, 0x9C, 0x41, 0, 7]
      initState).1.regs.getD 0 0 = 7 ∧
    (handlePdu ⟨40001, "big", "big"⟩ 1 [0x06, 0x9C, 0x41, 0, 7]
      initState).2 = [0x06, 0x9C, 0x41, 0, 7] := by
  obtain ⟨h1, h2⟩ := C2_fc06_valid_write ⟨40001, "big", "big"⟩ 1 initState
    [0x06, 0x9C, 0x41, 0, 7] (by decide) (by decide) (by decide) (by decide)
    initState_regs_length
  refine ⟨?_, h2⟩
  have e1 : (translateAddr (⟨40001, "big", "big"⟩ : Cfg)
      (be16 [0x06, 0x9C, 0x41, 0, 7] 1)).toNat = 0 := by decide
  rw [e1] at h1
  rw [h1]; decide

/-- C3: for every well-formed FC 0x06 or FC 0x10 write whose translated
index range lies partly or wholly outside [0, 4104): out-of-range indices
are silently skipped (registers outside the requested range, and the whole
store when the single write is out of range, are untouched; store length
never changes; in-range indices are still written), and the server sends
the normal success response for the full requested range (FC06 echoes the
PDU, FC10 responds (0x10, start, quantity)), never an exception. -/
theorem C3_out_of_range_writes_silent (cfg : Cfg) (now : ℚ) (st : ServerState)
    (pdu : List Nat) :
    ((pdu.getD 0 0 = 0x10 ∧ pdu.length = 6 + pdu.getD 5 0 ∧
        pdu.getD 5 0 = be16 pdu 3 * 2) →
      (handlePdu cfg now pdu st).2 = 0x10 :: (enc16 (be16 pdu 1) ++ enc16 (be16 pdu 3)) ∧
      (handlePdu cfg now pdu st).1.regs.length = st.regs.length ∧
      (∀ k : Nat, ((k : ℤ) < translateAddr cfg (be16 pdu 1) ∨
          translateAddr cfg (be16 pdu 1) + be16 pdu 3 ≤ (k : ℤ)) →
        (handlePdu cfg now pdu st).1.regs.getD k 0 = st.regs.getD k 0) ∧
      (∀ i : Nat, i < be16 pdu 3 → 0 ≤ translateAddr cfg (be16 pdu 1) + i →
        translateAddr cfg (be16 pdu 1) + i < (st.regs.length : ℤ) →
        (handlePdu cfg now pdu st).1.regs.getD (translateAddr cfg (be16 pdu 1) + i).toNat 0
          = 256 * pdu.getD (6+2*i) 0 + pdu.getD (6+2*i+1) 0)) ∧
    ((pdu.getD 0 0 = 0x06 ∧ pdu.length = 5 ∧
        ¬(0 ≤ translateAddr cfg (be16 pdu 1) ∧
          translateAddr cfg (be16 pdu 1) < (st.regs.length : ℤ))) →
      (handlePdu cfg now pdu st).1 = st ∧ (handlePdu cfg now pdu st).2 = pdu) := by
  constructor
  · rintro ⟨h16, hlen, hbc⟩
    refine ⟨by rw [handlePdu_fc16_wf cfg now pdu st h16 hlen hbc],
      handlePdu_regs_length cfg now pdu st, ?_, ?_⟩
    · intro k hk
      rw [handlePdu_fc16_wf_regs cfg now pdu st h16 hlen hbc,
        writeVals_getD_outside _ _ _ _ _ (by simpa using hk)]
    · intro i hi h0 h1
      rw [handlePdu_fc16_wf_regs cfg now pdu st h16 hlen hbc,
        writeVals_getD_at _ _ _ _ _ (by simpa using hi) h0 h1, getD_mapRange _ hi]
  · rintro ⟨h06, hlen, hoob⟩
    rw [handlePdu_fc06_wf cfg now pdu st h06 hlen]
    exact ⟨by dsimp only; rw [if_neg hoob],
      by dsimp only; exact List.take_of_length_le (by omega)⟩

/-- C3 witness: with base 0, an FC16 write of two words at start 4103 (one
word in range, one out) succeeds with the normal response and leaves word 0
alone, and an FC06 write to out-of-range address 4104 leaves the whole
state unchanged while echoing the PDU. -/
theorem C3_out_of_range_writes_silent_witness :
    (handlePdu ⟨0, "big", "big"⟩ 1 [0x10, 16, 7, 0, 2, 4, 0, 1, 0, 2] initState).2
        = [0x10, 16, 7, 0, 2] ∧
    (handlePdu ⟨0, "big", "big"⟩ 1 [0x10, 16, 7, 0, 2, 4, 0, 1, 0, 2]
        initState).1.regs.length = 4104 ∧
    (handlePdu ⟨0, "big", "big"⟩ 1 [0x10, 16, 7, 0, 2, 4, 0, 1, 0, 2]
        initState).1.regs.getD 0 0 = initState.regs.getD 0 0 ∧
    (handlePdu ⟨0, "big", "big"⟩ 2 [0x06, 16, 8, 0, 9] initState).1 = initState ∧
    (handlePdu ⟨0, "big", "big"⟩ 2 [0x06, 16, 8, 0, 9] initState).2
        = [0x06, 16, 8, 0, 9] := by
  obtain ⟨hA, -⟩ := C3_out_of_range_writes_silent ⟨0, "big", "big"⟩ 1 initState
    [0x10, 16, 7, 0, 2, 4, 0, 1, 0, 2]
  obtain ⟨h1, h2, h3, -⟩ := hA ⟨by decide, by decide, by decide⟩
  obtain ⟨-, hB⟩ := C3_out_of_range_writes_silent ⟨0, "big", "big"⟩ 2 initState
    [0x06, 16, 8, 0, 9]
  obtain ⟨h4, h5⟩ := hB ⟨by decide, by decide,
    by rw [initState_regs_length]; decide⟩
  refine ⟨by rw [h1]; decide, by rw [h2, initState_regs_length], ?_, h4, h5⟩
  exact h3 0 (by decide)

/-- C10: for every handled request, well-formed or not, the only register
words that may change are those at the request's translated indices that
fall inside the store; every other word is unchanged, and the register
array's length stays 4104 words for the life of the process (it is 4104 at
startup and every request and every whole connection preserve it). -/
theorem C10_frame_effect (cfg : Cfg) (now : ℚ) (pdu : List Nat) (st : ServerState) :
    (handlePdu cfg now pdu st).1.regs.length = st.regs.length ∧
    (∀ k : Nat, (k : ℤ) ∉ touchedIdx cfg pdu →
      (handlePdu cfg now pdu st).1.regs.getD k 0 = st.regs.getD k 0) ∧
    initState.regs.length = 4104 ∧
    (∀ (times : List ℚ) (input : List Nat),
      (handleConn cfg times input st).1.regs.length = st.regs.length) := by
  refine ⟨handlePdu_regs_length cfg now pdu st, ?_, initState_regs_length,
    fun times input => handleConn_regs_length cfg times input st⟩
  intro k hk
  by_cases h16 : pdu.getD 0 0 = 0x10
  · by_cases h6 : pdu.length < 6
    · rw [handlePdu_fc16_malformed cfg now pdu st h16 (Or.inl h6)]
    · by_cases hwf : pdu.length = 6 + pdu.getD 5 0 ∧ pdu.getD 5 0 = be16 pdu 3 * 2
      · obtain ⟨hlen, hbc⟩ := hwf
        have ht : touchedIdx cfg pdu
            = (List.range (be16 pdu 3)).map fun (i : Nat) => translateAddr cfg (be16 pdu 1) + (i : ℤ) := by
          simp only [touchedIdx]
          rw [if_pos h16, if_neg h6, if_neg (by push_neg; exact ⟨hlen, hbc⟩)]
        rw [ht] at hk
        rw [handlePdu_fc16_wf_regs cfg now pdu st h16 hlen hbc]
        apply writeVals_getD_outside
        simp only [List.length_map, List.length_range]
        by_contra hc
        push_neg at hc
        obtain ⟨h1c, h2c⟩ := hc
        have hmem : ((k : ℤ) - translateAddr cfg (be16 pdu 1)).toNat
            ∈ List.range (be16 pdu 3) := by
          rw [List.mem_range]; omega
        have heq : translateAddr cfg (be16 pdu 1) +
            ((((k : ℤ) - translateAddr cfg (be16 pdu 1)).toNat : ℕ) : ℤ) = (k : ℤ) := by
          omega
        exact hk (List.mem_map.mpr ⟨_, hmem, heq⟩)
      · push_neg at hwf
        rcases Decidable.em (pdu.length = 6 + pdu.getD 5 0) with he | he
        · rw [handlePdu_fc16_malformed cfg now pdu st h16 (Or.inr (Or.inr (hwf he)))]
        · rw [handlePdu_fc16_malformed cfg now pdu st h16 (Or.inr (Or.inl he))]
  · by_cases h06 : pdu.getD 0 0 = 0x06
    · by_cases hl : pdu.length = 5
      · have ht : touchedIdx cfg pdu = [translateAddr cfg (be16 pdu 1)] := by
          simp only [touchedIdx]
          rw [if_neg (by rw [h06]; decide), if_pos h06, if_neg (by omega)]
        rw [ht] at hk
        simp only [List.mem_singleton] at hk
        rw [handlePdu_fc06_wf cfg now pdu st h06 hl]
        dsimp only
        split
        · rename_i hin
          have hne : (translateAddr cfg (be16 pdu 1)).toNat ≠ k := by omega
          simp [doFlush, List.getD_eq_getElem?_getD, List.getElem?_set_ne hne]
        · rfl
      · rw [handlePdu_fc06_malformed cfg now pdu st h06 hl]
    · rw [handlePdu_unsupported cfg now pdu st h16 h06]

/-- C10 witness: an FC06 write to protocol address 4103 (base 0) touches
only index 4103; word 5 is unchanged and the length is preserved. -/
theorem C10_frame_effect_witness :
    (handlePdu ⟨0, "big", "big"⟩ 1 [0x06, 16, 7, 0, 9] initState).1.regs.length
        = initState.regs.length ∧
    (handlePdu ⟨0, "big", "big"⟩ 1 [0x06, 16, 7, 0, 9] initState).1.regs.getD 5 0
        = initState.regs.getD 5 0 := by
  obtain ⟨h1, h2, -, -⟩ := C10_frame_effect ⟨0, "big", "big"⟩ 1 [0x06, 16, 7, 0, 9] initState
  exact ⟨h1, h2 5 (by decide)⟩

/-! ### Flush step helpers -/

theorem fc16_step_flush (cfg : Cfg) (now : ℚ) (pdu : List Nat) (st : ServerState)
    (h16 : pdu.getD 0 0 = 0x10) (hlen : pdu.length = 6 + pdu.getD 5 0)
    (hbc : pdu.getD 5 0 = be16 pdu 3 * 2) (hth : now - st.lastWriteTs ≥ 1/5) :
    (handlePdu cfg now pdu st).1.lastWriteTs = now ∧
    (handlePdu cfg now pdu st).1.flushLog.length = st.flushLog.length + 1 := by
  rw [handlePdu_fc16_wf cfg now pdu st h16 hlen hbc]
  dsimp only
  rw [if_pos hth]
  simp [doFlush]

theorem fc16_step_noflush (cfg : Cfg) (now : ℚ) (pdu : List Nat) (st : ServerState)
    (h16 : pdu.getD 0 0 = 0x10) (hlen : pdu.length = 6 + pdu.getD 5 0)
    (hbc : pdu.getD 5 0 = be16 pdu 3 * 2) (hth : ¬ now - st.lastWriteTs ≥ 1/5) :
    (handlePdu cfg now pdu st).1.lastWriteTs = st.lastWriteTs ∧
    (handlePdu cfg now pdu st).1.flushLog = st.flushLog := by
  rw [handlePdu_fc16_wf cfg now pdu st h16 hlen hbc]
  dsimp only
  rw [if_neg hth]
  exact ⟨rfl, rfl⟩

theorem fc06_step_flush (cfg : Cfg) (now : ℚ) (pdu : List Nat) (st : ServerState)
    (h06 : pdu.getD 0 0 = 0x06) (hlen : pdu.length = 5)
    (hin : 0 ≤ translateAddr cfg (be16 pdu 1) ∧
      translateAddr cfg (be16 pdu 1) < (st.regs.length : ℤ)) :
    (handlePdu cfg now pdu st).1.lastWriteTs = st.lastWriteTs ∧
    (handlePdu cfg now pdu st).1.flushLog.length = st.flushLog.length + 1 := by
  rw [handlePdu_fc06_wf cfg now pdu st h06 hlen]
  dsimp only
  rw [if_pos hin]
  simp [doFlush]

/-- C5 amended: the 0.2-second throttle, tracked through the single
process-wide timestamp LAST_WRITE_TS, governs only the FC 0x10 path: a
well-formed multiple-register write flushes exactly when at least 0.2
seconds have passed since the timestamp, and only then updates it, so two
FC 0x10 writes within 0.2 seconds of a flush produce exactly one flush and
a later FC 0x10 write after the window produces a second; the FC 0x06 path
flushes unconditionally on every in-range write and never consults or
updates the timestamp. -/
theorem C5_flush_throttle (cfg : Cfg) (st : ServerState) (pdu6 pdu16 : List Nat) :
    ((pdu16.getD 0 0 = 0x10 ∧ pdu16.length = 6 + pdu16.getD 5 0 ∧
        pdu16.getD 5 0 = be16 pdu16 3 * 2) →
      (∀ now : ℚ, now - st.lastWriteTs ≥ 1/5 →
        (handlePdu cfg now pdu16 st).1.flushLog.length = st.flushLog.length + 1 ∧
        (handlePdu cfg now pdu16 st).1.lastWriteTs = now) ∧
      (∀ now : ℚ, ¬ now - st.lastWriteTs ≥ 1/5 →
        (handlePdu cfg now pdu16 st).1.flushLog = st.flushLog ∧
        (handlePdu cfg now pdu16 st).1.lastWriteTs = st.lastWriteTs) ∧
      (∀ t1 t2 t3 : ℚ, t1 - st.lastWriteTs ≥ 1/5 → t2 - t1 < 1/5 → t3 - t1 ≥ 1/5 →
        (handlePdu cfg t2 pdu16 (handlePdu cfg t1 pdu16 st).1).1.flushLog.length
          = st.flushLog.length + 1 ∧
        (handlePdu cfg t3 pdu16 (handlePdu cfg t2 pdu16
            (handlePdu cfg t1 pdu16 st).1).1).1.flushLog.length
          = st.flushLog.length + 2)) ∧
    ((pdu6.getD 0 0 = 0x06 ∧ pdu6.length = 5 ∧
        0 ≤ translateAddr cfg (be16 pdu6 1) ∧
        translateAddr cfg (be16 pdu6 1) < (st.regs.length : ℤ)) →
      ∀ now : ℚ,
        (handlePdu cfg now pdu6 st).1.flushLog.length = st.flushLog.length + 1 ∧
        (handlePdu cfg now pdu6 st).1.lastWriteTs = st.lastWriteTs) := by
  constructor
  · rintro ⟨h16, hlen, hbc⟩
    refine ⟨fun now hth => ?_, fun now hth => ?_, fun t1 t2 t3 h1 h2 h3 => ?_⟩
    · obtain ⟨ha, hb⟩ := fc16_step_flush cfg now pdu16 st h16 hlen hbc hth
      exact ⟨hb, ha⟩
    · obtain ⟨ha, hb⟩ := fc16_step_noflush cfg now pdu16 st h16 hlen hbc hth
      exact ⟨hb, ha⟩
    · obtain ⟨hts1, hlog1⟩ := fc16_step_flush cfg t1 pdu16 st h16 hlen hbc h1
      have hth2 : ¬ t2 - (handlePdu cfg t1 pdu16 st).1.lastWriteTs ≥ 1/5 := by
        rw [hts1]; intro hc; exact absurd hc (by linarith)
      obtain ⟨hts2, hlog2⟩ := fc16_step_noflush cfg t2 pdu16 _ h16 hlen hbc hth2
      have h2log : (handlePdu cfg t2 pdu16 (handlePdu cfg t1 pdu16 st).1).1.flushLog.length
          = st.flushLog.length + 1 := by rw [hlog2, hlog1]
      refine ⟨h2log, ?_⟩
      have hth3 : t3 - (handlePdu cfg t2 pdu16
          (handlePdu cfg t1 pdu16 st).1).1.lastWriteTs ≥ 1/5 := by
        rw [hts2, hts1]; linarith
      obtain ⟨-, hlog3⟩ := fc16_step_flush cfg t3 pdu16 _ h16 hlen hbc hth3
      rw [hlog3, h2log]
  · rintro ⟨h06, hlen, hin1, hin2⟩
    intro now
    obtain ⟨ha, hb⟩ := fc06_step_flush cfg now pdu6 st h06 hlen ⟨hin1, hin2⟩
    exact ⟨hb, ha⟩

/-- C5 counterexample: two in-range FC 0x06 writes 0.05 seconds apart each
flush the snapshot file: the second flush happens 0.05 < 0.2 seconds after
the first, so a flush is not gated on 0.2 seconds since the last flush. -/
theorem C5_counterexample :
    (handlePdu ⟨40001, "big", "big"⟩ (21/20) [0x06, 0x9C, 0x41, 0, 1]
        (handlePdu ⟨40001, "big", "big"⟩ 1 [0x06, 0x9C, 0x41, 0, 1]
          initState).1).1.flushLog.length = 2 ∧
    ((21 : ℚ)/20 - 1 < 1/5) := by
  constructor
  · obtain ⟨-, hb1⟩ := fc06_step_flush ⟨40001, "big", "big"⟩ 1 [0x06, 0x9C, 0x41, 0, 1]
      initState (by decide) (by decide)
      ⟨by decide, by rw [initState_regs_length]; decide⟩
    obtain ⟨-, hb2⟩ := fc06_step_flush ⟨40001, "big", "big"⟩ (21/20) [0x06, 0x9C, 0x41, 0, 1]
      ((handlePdu ⟨40001, "big", "big"⟩ 1 [0x06, 0x9C, 0x41, 0, 1] initState).1)
      (by decide) (by decide)
      ⟨by decide, by rw [handlePdu_regs_length, initState_regs_length]; decide⟩
    rw [hb2, hb1]
    rfl
  · norm_num

/-- C5 witness: at concrete times 1, 1.1 and 1.3 (timestamp initially 0),
three well-formed FC 0x10 writes produce flushes exactly at times 1 and
1.3, and an in-range FC 0x06 write at time 1.01 right after the first flush
still flushes. -/
theorem C5_flush_throttle_witness :
    (handlePdu ⟨40001, "big", "big"⟩ (11/10) [0x10, 0x9C, 0x41, 0, 1, 2, 0, 5]
        (handlePdu ⟨40001, "big", "big"⟩ 1 [0x10, 0x9C, 0x41, 0, 1, 2, 0, 5]
          initState).1).1.flushLog.length = 1 ∧
    (handlePdu ⟨40001, "big", "big"⟩ (13/10) [0x10, 0x9C, 0x41, 0, 1, 2, 0, 5]
        (handlePdu ⟨40001, "big", "big"⟩ (11/10) [0x10, 0x9C, 0x41, 0, 1, 2, 0, 5]
          (handlePdu ⟨40001, "big", "big"⟩ 1 [0x10, 0x9C, 0x41, 0, 1, 2, 0, 5]
            initState).1).1).1.flushLog.length = 2 ∧
    (handlePdu ⟨40001, "big", "big"⟩ (101/100) [0x06, 0x9C, 0x41, 0, 1]
        initState).1.flushLog.length = 1 := by
  obtain ⟨hA, hB⟩ := C5_flush_throttle ⟨40001, "big", "big"⟩ initState
    [0x06, 0x9C, 0x41, 0, 1] [0x10, 0x9C, 0x41, 0, 1, 2, 0, 5]
  obtain ⟨-, -, hc⟩ := hA ⟨by decide, by decide, by decide⟩
  obtain ⟨h2w, h3w⟩ := hc 1 (11/10) (13/10) (by norm_num [initState]) (by norm_num)
    (by norm_num)
  obtain ⟨h6, -⟩ := hB ⟨by decide, by decide, by decide,
    by rw [initState_regs_length]; decide⟩ (101/100)
  refine ⟨?_, ?_, ?_⟩
  · rw [h2w]; rfl
  · rw [h3w]; rfl
  · rw [h6]; rfl

/-- C6 amended: a connection yielding fewer than 7 header bytes terminates
silently with no response bytes; after a complete 7-byte header, a
connection yielding zero payload bytes also terminates silently; but when
the peer yields at least one and fewer than length-1 payload bytes, the
truncated payload is processed as a request and its response is written
before the connection ends. -/
theorem C6_framing_truncation (cfg : Cfg) (times : List ℚ) (st : ServerState) :
    (∀ input : List Nat, input.length < 7 → handleConn cfg times input st = (st, [])) ∧
    (∀ hdr : List Nat, hdr.length = 7 → handleConn cfg times hdr st = (st, [])) ∧
    (∀ hdr p : List Nat, hdr.length = 7 → 1 ≤ p.length → p.length < be16 hdr 4 - 1 →
      handleConn cfg times (hdr ++ p) st =
        ((handlePdu cfg (times.headD 0) p st).1,
         sendBytes (be16 hdr 0) (hdr.getD 6 0) (handlePdu cfg (times.headD 0) p st).2)) := by
  refine ⟨fun input h => handleConn_eq_short cfg times input st h, fun hdr hh => ?_,
    fun hdr p hh h1 h2 => handleConn_truncated cfg times hdr p st hh h1 h2⟩
  apply handleConn_eq_nopdu cfg times hdr st (by omega)
  have hd : hdr.drop 7 = [] := List.drop_eq_nil_of_le (by omega)
  rw [hd]
  split <;> simp

/-- C6 witness: a 3-byte stream and a bare header are answered with
nothing; a header announcing a 5-byte PDU followed by a single byte 0x06
gets that byte processed as a (malformed) request. -/
theorem C6_framing_truncation_witness :
    handleConn ⟨40001, "big", "big"⟩ [] [1, 2, 3] initState = (initState, []) ∧
    handleConn ⟨40001, "big", "big"⟩ [] [0, 1, 0, 0, 0, 6, 1] initState = (initState, []) ∧
    handleConn ⟨40001, "big", "big"⟩ [] ([0, 1, 0, 0, 0, 6, 1] ++ [0x06]) initState =
      ((handlePdu ⟨40001, "big", "big"⟩ (([] : List ℚ).headD 0) [0x06] initState).1,
       sendBytes (be16 [0, 1, 0, 0, 0, 6, 1] 0) ([0, 1, 0, 0, 0, 6, 1].getD 6 0)
         (handlePdu ⟨40001, "big", "big"⟩ (([] : List ℚ).headD 0) [0x06] initState).2) := by
  obtain ⟨p1, p2, p3⟩ := C6_framing_truncation ⟨40001, "big", "big"⟩ [] initState
  exact ⟨p1 [1, 2, 3] (by decide), p2 [0, 1, 0, 0, 0, 6, 1] (by decide),
    p3 [0, 1, 0, 0, 0, 6, 1] [0x06] (by decide) (by decide) (by decide)⟩

/-- C6 counterexample: the claim says a payload shorter than length-1
terminates the connection without a response, but after the header
(0,1,0,0,0,6,1) announcing a 5-byte PDU, the single available byte 0x06 is
processed and the exception response frame (0,1,0,0,0,3,1,0x86,0x03) is
written back. -/
theorem C6_counterexample :
    (handleConn ⟨40001, "big", "big"⟩ [] ([0, 1, 0, 0, 0, 6, 1] ++ [0x06]) initState).2
        = [0, 1, 0, 0, 0, 3, 1, 0x86, 0x03] ∧
    (handleConn ⟨40001, "big", "big"⟩ [] ([0, 1, 0, 0, 0, 6, 1] ++ [0x06]) initState).2
        ≠ [] := by
  have h := handleConn_truncated ⟨40001, "big", "big"⟩ [] [0, 1, 0, 0, 0, 6, 1] [0x06]
    initState (by decide) (by decide) (by decide)
  have hm := handlePdu_fc06_malformed ⟨40001, "big", "big"⟩ (([] : List ℚ).headD 0)
    [0x06] initState (by decide) (by decide)
  rw [h, hm]
  exact ⟨by decide, by decide⟩

/-- C7: on a complete frame, an unsupported function code is answered with
(fc | 0x80, 0x01); a malformed supported request (FC06 length other than 5,
or FC10 with byteCount/quantity/length mismatch) is answered with
(fc | 0x80, 0x03); and the connection loop goes on to process the rest of
the input after the frame. -/
theorem C7_exception_responses (cfg : Cfg) (now : ℚ) (st : ServerState) (pdu : List Nat) :
    ((pdu.getD 0 0 ≠ 0x10 ∧ pdu.getD 0 0 ≠ 0x06) →
      (handlePdu cfg now pdu st).2 = [Nat.lor (pdu.getD 0 0) 0x80, 0x01]) ∧
    ((pdu.getD 0 0 = 0x06 ∧ pdu.length ≠ 5) →
      (handlePdu cfg now pdu st).2 = [Nat.lor 0x06 0x80, 0x03]) ∧
    ((pdu.getD 0 0 = 0x10 ∧
        (pdu.length ≠ 6 + pdu.getD 5 0 ∨ pdu.getD 5 0 ≠ be16 pdu 3 * 2)) →
      (handlePdu cfg now pdu st).2 = [Nat.lor 0x10 0x80, 0x03]) ∧
    (∀ (times : List ℚ) (hdr rest : List Nat), hdr.length = 7 →
      be16 hdr 4 - 1 = pdu.length → be16 hdr 4 ≠ 0 → pdu ≠ [] →
      handleConn cfg times (hdr ++ (pdu ++ rest)) st =
        ((handleConn cfg times.tail rest (handlePdu cfg (times.headD 0) pdu st).1).1,
         sendBytes (be16 hdr 0) (hdr.getD 6 0) (handlePdu cfg (times.headD 0) pdu st).2 ++
           (handleConn cfg times.tail rest (handlePdu cfg (times.headD 0) pdu st).1).2)) := by
  refine ⟨fun ⟨h1, h2⟩ => ?_, fun ⟨h06, hl⟩ => ?_, fun ⟨h16, hm⟩ => ?_,
    fun times hdr rest hh hL hL0 hp =>
      handleConn_frame cfg times hdr pdu rest st hh hL hL0 hp⟩
  · rw [handlePdu_unsupported cfg now pdu st h1 h2]; rfl
  · rw [handlePdu_fc06_malformed cfg now pdu st h06 hl]; rfl
  · by_cases h6 : pdu.length < 6
    · rw [handlePdu_fc16_malformed cfg now pdu st h16 (Or.inl h6)]; rfl
    · rw [handlePdu_fc16_malformed cfg now pdu st h16 (Or.inr hm)]; rfl

/-- C7 witness: function code 0x01 yields (0x81, 0x01); a 3-byte FC06 PDU
yields (0x86, 0x03); an FC10 PDU with byteCount 5 for quantity 2 yields
(0x90, 0x03); and a connection sending two complete bad frames receives
both exception frames back. -/
theorem C7_exception_responses_witness :
    (handlePdu ⟨40001, "big", "big"⟩ 0 [0x01] initState).2 = [0x81, 0x01] ∧
    (handlePdu ⟨40001, "big", "big"⟩ 0 [0x06, 0, 0] initState).2 = [0x86, 0x03] ∧
    (handlePdu ⟨40001, "big", "big"⟩ 0 [0x10, 0, 0, 0, 2, 5] initState).2
        = [0x90, 0x03] ∧
    (handleConn ⟨40001, "big", "big"⟩ []
        ([0, 1, 0, 0, 0, 2, 1] ++ ([0x01] ++ ([0, 2, 0, 0, 0, 2, 1] ++ ([0x01] ++ []))))
        initState).2
      = [0, 1, 0, 0, 0, 3, 1, 0x81, 0x01, 0, 2, 0, 0, 0, 3, 1, 0x81, 0x01] := by
  obtain ⟨q1, -, -, q4⟩ := C7_exception_responses ⟨40001, "big", "big"⟩ 0 initState [0x01]
  obtain ⟨-, q2, -, -⟩ := C7_exception_responses ⟨40001, "big", "big"⟩ 0 initState
    [0x06, 0, 0]
  obtain ⟨-, -, q3, -⟩ := C7_exception_responses ⟨40001, "big", "big"⟩ 0 initState
    [0x10, 0, 0, 0, 2, 5]
  obtain ⟨r1, -, -, r4⟩ := C7_exception_responses ⟨40001, "big", "big"⟩ 0
    ((handlePdu ⟨40001, "big", "big"⟩ (([] : List ℚ).headD 0) [0x01] initState).1) [0x01]
  refine ⟨q1 ⟨by decide, by decide⟩, q2 ⟨by decide, by decide⟩,
    q3 ⟨by decide, by decide⟩, ?_⟩
  rw [q4 [] [0, 1, 0, 0, 0, 2, 1] ([0, 2, 0, 0, 0, 2, 1] ++ ([0x01] ++ []))
    (by decide) (by decide) (by decide) (by decide)]
  rw [r4 (([] : List ℚ).tail) [0, 2, 0, 0, 0, 2, 1] [] (by decide) (by decide)
    (by decide) (by decide)]
  rw [handleConn_eq_short _ _ _ _ (by decide)]
  have e1 : (handlePdu ⟨40001, "big", "big"⟩ (([] : List ℚ).headD 0) [0x01]
      initState).2 = [0x81, 0x01] := by
    rw [handlePdu_unsupported _ _ _ _ (by decide) (by decide)]; decide
  have e2 : (handlePdu ⟨40001, "big", "big"⟩ ((([] : List ℚ).tail).headD 0) [0x01]
      ((handlePdu ⟨40001, "big", "big"⟩ (([] : List ℚ).headD 0) [0x01] initState).1)).2
      = [0x81, 0x01] := by
    rw [handlePdu_unsupported _ _ _ _ (by decide) (by decide)]; decide
  rw [e1, e2]
  decide

theorem pad0_3_length : ∀ m : Nat, m < 1000 → (pad0 3 m).length = 3 := by decide

/-- C8 amended: a flushed snapshot has one line per channel in
table-declaration order (660 AI, 44 AO, 51 HC, 52 TK = 807 lines), each
formatted as channelId, a pipe separator, and the value; UInt32 channels
print as plain decimals; finite float values print with exactly three
decimal digits, while non-finite float32 contents print as nan, inf or -inf
with no decimals; the text is the newline-join of the lines with no
trailing newline; and each flush replaces the file content with exactly the
snapshot of the current registers (truncate + write, never append). -/
theorem C8_snapshot_format (wo bo : String) (regs : List Nat) (cfg : Cfg)
    (now : ℚ) (st : ServerState) (pdu6 pdu16 : List Nat) :
    (snapshotLines wo bo regs).length = 807 ∧
    (∀ i : Nat, i < 660 → (snapshotLines wo bo regs).getD i "" =
      "AI." ++ pad0 4 i ++ " | " ++
        fmtFloat3 (f32FromRegs (regs.getD (2*i) 0) (regs.getD (2*i+1) 0) wo bo)) ∧
    (∀ i : Nat, i < 44 → (snapshotLines wo bo regs).getD (660 + i) "" =
      "AO." ++ pad0 4 i ++ " | " ++
        fmtFloat3 (f32FromRegs (regs.getD (2000+2*i) 0) (regs.getD (2000+2*i+1) 0) wo bo)) ∧
    (∀ k : Nat, k < 51 → (snapshotLines wo bo regs).getD (704 + k) "" =
      (HC_ADDRS.getD k ("", 0)).1 ++ " | " ++
        toString (u32FromRegs (regs.getD (HC_ADDRS.getD k ("", 0)).2 0)
          (regs.getD ((HC_ADDRS.getD k ("", 0)).2 + 1) 0) wo bo)) ∧
    (∀ i : Nat, i < 52 → (snapshotLines wo bo regs).getD (755 + i) "" =
      "TK." ++ pad0 4 i ++ " | " ++
        fmtFloat3 (f32FromRegs (regs.getD (4000+2*i) 0) (regs.getD (4000+2*i+1) 0) wo bo)) ∧
    snapshotText wo bo regs = String.intercalate "\n" (snapshotLines wo bo regs) ∧
    (∀ (neg : Bool) (mag : ℚ),
      fmtFloat3 (.fin neg mag) = (if neg then "-" else "") ++
        toString ((rnd3 (mag * 1000)).toNat / 1000) ++ "." ++
        pad0 3 ((rnd3 (mag * 1000)).toNat % 1000) ∧
      (pad0 3 ((rnd3 (mag * 1000)).toNat % 1000)).length = 3) ∧
    fmtFloat3 F32.nan = "nan" ∧
    fmtFloat3 (F32.inf false) = "inf" ∧
    fmtFloat3 (F32.inf true) = "-inf" ∧
    ((pdu6.getD 0 0 = 0x06 ∧ pdu6.length = 5 ∧
        0 ≤ translateAddr cfg (be16 pdu6 1) ∧
        translateAddr cfg (be16 pdu6 1) < (st.regs.length : ℤ)) →
      (handlePdu cfg now pdu6 st).1.fileContent
        = some (snapshotText cfg.wordorder cfg.byteorder (handlePdu cfg now pdu6 st).1.regs)) ∧
    ((pdu16.getD 0 0 = 0x10 ∧ pdu16.length = 6 + pdu16.getD 5 0 ∧
        pdu16.getD 5 0 = be16 pdu16 3 * 2 ∧ now - st.lastWriteTs ≥ 1/5) →
      (handlePdu cfg now pdu16 st).1.fileContent
        = some (snapshotText cfg.wordorder cfg.byteorder (handlePdu cfg now pdu16 st).1.regs)) := by
  refine ⟨snapshotLines_length wo bo regs,
    fun i hi => snapshotLines_getD_ai wo bo regs hi,
    fun i hi => snapshotLines_getD_ao wo bo regs hi,
    fun k hk => snapshotLines_getD_hc wo bo regs hk,
    fun i hi => snapshotLines_getD_tk wo bo regs hi,
    rfl, fun neg mag => ⟨rfl, pad0_3_length _ (Nat.mod_lt _ (by omega))⟩,
    rfl, rfl, rfl, ?_, ?_⟩
  · rintro ⟨h06, hlen, hin1, hin2⟩
    rw [handlePdu_fc06_wf cfg now pdu6 st h06 hlen]
    dsimp only
    rw [if_pos ⟨hin1, hin2⟩]
    rfl
  · rintro ⟨h16, hlen, hbc, hth⟩
    rw [handlePdu_fc16_wf cfg now pdu16 st h16 hlen hbc]
    dsimp only
    rw [if_pos hth]
    rfl

/-- C8 witness: on the all-zero initial registers the snapshot has 807
lines, the first being AI.0000 with value 0.000, and an in-range FC06 write
leaves the file holding exactly the snapshot of the updated registers. -/
theorem C8_snapshot_format_witness :
    (snapshotLines "big" "big" initState.regs).length = 807 ∧
    (snapshotLines "big" "big" initState.regs).getD 0 "" = "AI.0000 | 0.000" ∧
    (handlePdu ⟨40001, "big", "big"⟩ 1 [0x06, 0x9C, 0x41, 0, 1] initState).1.fileContent
      = some (snapshotText "big" "big"
          (handlePdu ⟨40001, "big", "big"⟩ 1 [0x06, 0x9C, 0x41, 0, 1] initState).1.regs) := by
  obtain ⟨l1, g1, -, -, -, -, -, -, -, -, ov6, -⟩ :=
    C8_snapshot_format "big" "big" initState.regs ⟨40001, "big", "big"⟩ 1 initState
      [0x06, 0x9C, 0x41, 0, 1] [0x10, 0x9C, 0x41, 0, 1, 2, 0, 5]
  have hg := g1 0 (by omega)
  simp only [Nat.mul_zero, Nat.zero_add] at hg
  have e0 : initState.regs.getD 0 0 = 0 := by
    rw [show initState.regs = List.replicate 4104 0 from rfl,
      List.getD_eq_getElem?_getD, List.getElem?_replicate, if_pos (by omega)]
    rfl
  have e1 : initState.regs.getD 1 0 = 0 := by
    rw [show initState.regs = List.replicate 4104 0 from rfl,
      List.getD_eq_getElem?_getD, List.getElem?_replicate, if_pos (by omega)]
    rfl
  rw [e0, e1] at hg
  refine ⟨l1, ?_, ov6 ⟨by decide, by decide, by decide,
    by rw [initState_regs_length]; decide⟩⟩
  rw [hg]
  with_unfolding_all decide

/-- C8 counterexample: with register 0 holding 0x7FC0 (a float32 NaN
pattern with word 1 zero), the first snapshot line is "AI.0000 | nan": a
float channel printed without three decimal places. -/
theorem C8_counterexample :
    (snapshotLines "big" "big" ((List.replicate 4104 0).set 0 0x7FC0)).getD 0 ""
      = "AI.0000 | nan" := by
  have hg := @snapshotLines_getD_ai "big" "big" ((List.replicate 4104 0).set 0 0x7FC0)
    0 (by omega)
  simp only [Nat.mul_zero, Nat.zero_add] at hg
  have e0 : ((List.replicate 4104 0).set 0 0x7FC0).getD 0 0 = 0x7FC0 := by
    rw [List.getD_eq_getElem?_getD,
      List.getElem?_set_eq_of_lt _ (by rw [List.length_replicate]; omega)]
    rfl
  have e1 : ((List.replicate 4104 0).set 0 0x7FC0).getD 1 0 = 0 := by
    rw [List.getD_eq_getElem?_getD, List.getElem?_set_ne (by omega),
      List.getElem?_replicate, if_pos (by omega)]
    rfl
  rw [e0, e1] at hg
  rw [hg]
  decide

/-- C9 amended: when the configured byte order is big (with either word
order), the server's snapshot writer and the Gateway Reader produce the
identical sequence of per-channel snapshot lines (same ordering, same
format, same decoded values) from the same register contents; under little
byte order the decoded values differ, because the reader's final 32-bit
interpretation follows the byte order while the server's is always
big-endian. -/
theorem C9_reader_matches_server (wo : String) (hwo : wo = "big" ∨ wo = "little")
    (regs : List Nat) :
    readerChannelLines regs wo "big" = snapshotLines wo "big" regs := by
  rw [readerChannelLines, snapshotLines, readerBlock_ai_eq hwo, readerBlock_ao_eq hwo,
    readerBlock_hc_eq hwo, readerBlock_tk_eq hwo]

/-- C9 witness: on the zero-filled initial registers with big word and byte
order the reader's lines equal the server's snapshot lines. -/
theorem C9_reader_matches_server_witness :
    readerChannelLines initState.regs "big" "big"
      = snapshotLines "big" "big" initState.regs :=
  C9_reader_matches_server "big" (Or.inl rfl) initState.regs

/-- C9 counterexample: with register 3000 = 1 and little byte order (big
word order), the server's HC.0171 line reads 16777216 while the reader's
reads 1, so the two snapshot texts are not bit-for-bit identical under
every byte/word order combination. -/
theorem C9_counterexample :
    snapshotLines "big" "little" ((List.replicate 4104 0).set 3000 1)
      ≠ readerChannelLines ((List.replicate 4104 0).set 3000 1) "big" "little" := by
  intro h
  have h704 := congrArg (fun l => l.getD 704 "") h
  simp only at h704
  have hs := @snapshotLines_getD_hc "big" "little" ((List.replicate 4104 0).set 3000 1)
    0 (by omega)
  have hr := @readerChannelLines_getD_hc ((List.replicate 4104 0).set 3000 1)
    "big" "little" 0 (by omega)
  have e2 : ((List.replicate 4104 0).set 3000 1).getD 3000 0 = 1 := by
    rw [List.getD_eq_getElem?_getD,
      List.getElem?_set_eq_of_lt _ (by rw [List.length_replicate]; omega)]
    rfl
  have e3 : ((List.replicate 4104 0).set 3000 1).getD 3001 0 = 0 := by
    rw [List.getD_eq_getElem?_getD, List.getElem?_set_ne (by omega),
      List.getElem?_replicate, if_pos (by omega)]
    rfl
  rw [show ((HC_ADDRS.getD 0 ("", 0)).2 : Nat) = 3000 from rfl] at hs
  rw [show ((HC_ADDRS.getD 0 ("", 0)).1 : String) = "HC.0171" from rfl] at hs
  simp only [Nat.mul_zero, Nat.add_zero] at hs hr h704
  rw [e2] at hs hr
  rw [show (3000 + 1 : Nat) = 3001 from rfl] at hs hr
  rw [e3] at hs hr
  rw [hs, hr] at h704
  exact absurd h704 (by decide)

/-- C4 (decoder modelled from the spec): for any register pair under any
word/byte order, the heuristic decoder returns the float32 interpretation
whenever it is plausible (finite with magnitude in [1e-6, 1e6]); when it is
implausible and the word-order-dependent high word is 0x0000 or 0xFFFF it
returns the low word as a signed 16-bit integer times the configured scale
factor; otherwise it returns the implausible float unchanged; and the
fallback never applies to UInt32 channels. -/
theorem C4_heuristic_decode_gating (wordorder byteorder : String) (scale : ℚ)
    (w0 w1 : Nat) :
    (plausibleF32 (f32FromRegs w0 w1 wordorder byteorder) = true →
      heuristicDecode wordorder byteorder scale .float32 w0 w1
        = .floatVal (f32FromRegs w0 w1 wordorder byteorder)) ∧
    (plausibleF32 (f32FromRegs w0 w1 wordorder byteorder) = false →
      ((if wordorder = "big" then w0 else w1) = 0x0000 ∨
        (if wordorder = "big" then w0 else w1) = 0xFFFF) →
      heuristicDecode wordorder byteorder scale .float32 w0 w1
        = .scaledInt ((int16Of (if wordorder = "big" then w1 else w0) : ℚ) * scale)) ∧
    (plausibleF32 (f32FromRegs w0 w1 wordorder byteorder) = false →
      ¬((if wordorder = "big" then w0 else w1) = 0x0000 ∨
        (if wordorder = "big" then w0 else w1) = 0xFFFF) →
      heuristicDecode wordorder byteorder scale .float32 w0 w1
        = .floatVal (f32FromRegs w0 w1 wordorder byteorder)) ∧
    (∀ q : ℚ, heuristicDecode wordorder byteorder scale .uint32 w0 w1 ≠ .scaledInt q) ∧
    (∀ (neg : Bool) (mag : ℚ), plausibleF32 (.fin neg mag) = true ↔
      (mkRat 1 1000000 ≤ mag ∧ mag ≤ 1000000)) ∧
    plausibleF32 .nan = false ∧
    (∀ b : Bool, plausibleF32 (.inf b) = false) := by
  refine ⟨fun hp => ?_, fun hp hh => ?_, fun hp hh => ?_, fun q hq => ?_,
    fun neg mag => ?_, rfl, fun b => rfl⟩
  · simp only [heuristicDecode]
    rw [if_pos hp]
  · simp only [heuristicDecode]
    rw [if_neg (by rw [hp]; decide), if_pos hh]
  · simp only [heuristicDecode]
    rw [if_neg (by rw [hp]; decide), if_neg hh]
  · simp only [heuristicDecode] at hq
    exact DecodedVal.noConfusion hq
  · simp [plausibleF32]

/-- C4 witness: under big/big orders with scale 3, the pi register pair is
plausible and decoded as its float32 value; the pair (0, 5) decodes to the
tiny subnormal float 5 * 2^-149, which is implausible with high word 0, so
it falls back to int16(5) * 3; and a UInt32 channel with the same registers
is never scaled. -/
theorem C4_heuristic_decode_gating_witness :
    heuristicDecode "big" "big" 3 .float32 0x4049 0x0FDB
      = .floatVal (f32FromRegs 0x4049 0x0FDB "big" "big") ∧
    heuristicDecode "big" "big" 3 .float32 0 5
      = .scaledInt ((int16Of 5 : ℚ) * 3) ∧
    heuristicDecode "big" "big" 3 .uint32 0 5 ≠ .scaledInt 0 := by
  obtain ⟨p1, -, -, -, -, -, -⟩ :=
    C4_heuristic_decode_gating "big" "big" 3 0x4049 0x0FDB
  obtain ⟨-, p2, -, p4, -, -, -⟩ := C4_heuristic_decode_gating "big" "big" 3 0 5
  refine ⟨p1 (by with_unfolding_all decide), ?_, p4 0⟩
  have h := p2 (by with_unfolding_all decide) (by decide)
  rw [h]
  rfl
